import Mathlib

/-!
Verification of the glox tree-walking Lox interpreter
(github.com/letung3105/lox, Go implementation).

The definitions below are a shallow embedding of the Go sources:

* `interpreter.go` — the `Interpreter` visitor methods (`VisitCallExpr`,
  `VisitBinaryExpr`, `VisitLogicalExpr`, `VisitSetExpr`, `VisitExprStmt`,
  `execBlock`, ...), embedded as one fuel-indexed evaluation function
  `interp` over a task sum type, with wrappers `eval`, `exec`,
  `execBlock`, `evalArgs` named after the Go methods.
* `stmt.go` — the statement AST (the expression AST, `expr.go`, is not in
  the provided sources; its shape is reconstructed from its uses in
  `interpreter.go` and from the spec's data model).
* `reporter.go` and the newer copy of the same file (`part_001`) — the
  `SimpleReporter` with its two historical versions of `Reset`.
* `part_000` — the CLI `main` entry point (usage/exit-code logic).

Go `float64` numbers are modelled as `ℚ`, abstracting IEEE-754 rounding
and NaN; no property proved here depends on rounding behaviour.
Go heap pointers (environments, functions, classes, instances) are
modelled as indices into explicit stores, so Go's pointer-identity
equality becomes index equality.
-/

namespace Glox

/-- Token kinds used by the interpreter (subset of `token.go` relevant to
evaluation; the scanner is out of scope of the claims). -/
inductive TokenType where
  | BANG_EQUAL | EQUAL_EQUAL | GREATER | GREATER_EQUAL | LESS | LESS_EQUAL
  | MINUS | PLUS | SLASH | STAR | OR | AND | BANG
  deriving DecidableEq, Repr

/-- A scanner token: kind, lexeme and source line (`token.go`). -/
structure Token where
  type : TokenType
  lexeme : String
  line : Nat
  deriving DecidableEq, Repr

/-- Lox runtime values (`interface{}` in Go): nil, bool, number, string,
or a pointer to a heap object (function, class, instance, native).
`vref` holds the heap address, so Go pointer identity is address equality. -/
inductive Value where
  | vnil
  | vbool (b : Bool)
  | vnum (q : ℚ)
  | vstr (s : String)
  | vref (addr : Nat)
  deriving DecidableEq, Repr

/-- Go `==` on two `interface{}` values holding Lox values: equal dynamic
types and equal payloads; pointers compare by identity (here: address). -/
def goEq (a b : Value) : Bool := decide (a = b)

/-- Discriminant of a value's dynamic type. -/
def vtag : Value → Nat
  | .vnil => 0
  | .vbool _ => 1
  | .vnum _ => 2
  | .vstr _ => 3
  | .vref _ => 4

/-- Error channel of evaluation: Go returns `error`, which is either a
`*runtimeError` or the `*callReturn` nonlocal-return signal. -/
inductive LoxError where
  | runtime (tok : Token) (msg : String)
  | callReturn (v : Value)
  deriving DecidableEq, Repr

/-- Result of a fallible computation.  `.out` marks fuel exhaustion of the
embedding (the Go code simply keeps running) and Go panics, which no claim
exercises. -/
inductive Outcome (α : Type) where
  | ok (a : α)
  | err (e : LoxError)
  | out
  deriving DecidableEq, Repr

/-- The expression AST.  `expr.go` is not among the provided sources; the
variants and fields are reconstructed from their uses in `interpreter.go`
and the spec's data model (§3).  The Go resolver keys its side table on
expression pointer identity; the variable-referencing variants
(`assign`, `superE`, `thisE`, `varE`) therefore carry a node id. -/
inductive Expr where
  | assign (id : Nat) (name : Token) (val : Expr)
  | binary (lhs : Expr) (op : Token) (rhs : Expr)
  | call (callee : Expr) (paren : Token) (args : List Expr)
  | get (obj : Expr) (name : Token)
  | group (inner : Expr)
  | literal (v : Value)
  | logical (lhs : Expr) (op : Token) (rhs : Expr)
  | setE (obj : Expr) (name : Token) (val : Expr)
  | superE (id : Nat) (keyword : Token) (method : Token)
  | thisE (id : Nat) (keyword : Token)
  | unary (op : Token) (e : Expr)
  | varE (id : Nat) (name : Token)

mutual

/-- Statement AST from `stmt.go`.  `classS.superV` is the optional
`*VarExpr` for the superclass (its resolver id and name token). -/
inductive Stmt where
  | block (stmts : List Stmt)
  | classS (name : Token) (superV : Option (Nat × Token)) (methods : List FunctionDecl)
  | exprS (e : Expr)
  | functionS (decl : FunctionDecl)
  | ifS (cond : Expr) (thenBranch : Stmt) (elseBranch : Option Stmt)
  | print (e : Expr)
  | returnS (keyword : Token) (val : Option Expr)
  | varS (name : Token) (initE : Option Expr)
  | whileS (cond : Expr) (body : Stmt)

/-- A function declaration (`FunctionStmt` in `stmt.go`): name, parameters,
body. -/
inductive FunctionDecl where
  | mk (name : Token) (params : List Token) (body : List Stmt)

end

/-- The declared-name token of a function declaration. -/
def FunctionDecl.nameTok : FunctionDecl → Token
  | .mk n _ _ => n

/-- The parameter tokens of a function declaration. -/
def FunctionDecl.params : FunctionDecl → List Token
  | .mk _ p _ => p

/-- The body statements of a function declaration. -/
def FunctionDecl.body : FunctionDecl → List Stmt
  | .mk _ _ b => b

/-- A heap object: the Go runtime values reached through pointers.
`functionClock` is the single native; `funcObj` is `lox.function`
(declaration, closure environment address, is-initializer flag);
`classObj` maps method names to `funcObj` addresses; `instObj` is a
`lox.instance` (class address and mutable field table). -/
inductive HeapObj where
  | clockFn
  | funcObj (decl : FunctionDecl) (closure : Nat) (isInitializer : Bool)
  | classObj (cname : String) (superclass : Option Nat) (methods : List (String × Nat))
  | instObj (klass : Nat) (fields : List (String × Value))

/-- One environment frame (`lox.environment`): a name-to-value table and an
optional enclosing frame (modelled from the spec, §3/§4.5:
`environment.go` is not among the provided sources). -/
structure EnvFrame where
  values : List (String × Value)
  enclosing : Option Nat

/-- The mutable interpreter state: the environment store, the object heap,
the current environment (`in.environment` in Go), and the text written so
far to the interpreter's output writer (one entry per `Fprintln`). -/
structure LoxState where
  envs : List EnvFrame
  heap : List HeapObj
  envAddr : Nat
  output : List String

/-- The immutable part of `lox.Interpreter`: the globals pointer, the
resolver's side table `locals` (expression id → scope distance) and the
REPL flag.  In the Go code these fields are never re-assigned after
construction; only `environment` (in `LoxState`) changes. -/
structure Interp where
  globalsAddr : Nat
  locals : List (Nat × Nat)
  isREPL : Bool

/-- Association-list lookup (models a Go `map` read). -/
def assocGet {κ α : Type} [DecidableEq κ] : List (κ × α) → κ → Option α
  | [], _ => none
  | (k, v) :: rest, k' => if k = k' then some v else assocGet rest k'

/-- Association-list insert-or-replace (models a Go `map` write). -/
def assocSet {κ α : Type} [DecidableEq κ] : List (κ × α) → κ → α → List (κ × α)
  | [], k, v => [(k, v)]
  | (k', v') :: rest, k, v =>
      if k' = k then (k, v) :: rest else (k', v') :: assocSet rest k v

/-- Modelled from the spec: `environment.go` is not among the provided
sources.  Follow `enclosing` links for exactly `steps` frames
(`environment.ancestor`); a dangling link would nil-panic in Go and is
unreachable for resolver-produced distances, modelled by stopping. -/
def envAncestor (s : LoxState) : Nat → Nat → Nat
  | a, 0 => a
  | a, st + 1 =>
      match s.envs[a]? with
      | some fr =>
          match fr.enclosing with
          | some p => envAncestor s p st
          | none => a
      | none => a

/-- Modelled from the spec: `environment.getAt(steps, name)` — step exactly
`steps` frames and read that frame's map directly (a missing key reads the
Go map zero value, `nil`). -/
def envGetAt (s : LoxState) (a : Nat) (steps : Nat) (name : String) : Value :=
  match s.envs[envAncestor s a steps]? with
  | some fr => (assocGet fr.values name).getD .vnil
  | none => .vnil

/-- Modelled from the spec: `environment.assignAt(steps, name, v)` — step
exactly `steps` frames from the current environment and write that frame's
map directly. -/
def envAssignAt (s : LoxState) (steps : Nat) (name : String) (v : Value) : LoxState :=
  let a := envAncestor s s.envAddr steps
  match s.envs[a]? with
  | some fr => { s with envs := s.envs.set a { fr with values := assocSet fr.values name v } }
  | none => s

/-- Modelled from the spec: `environment.define(name, v)` — unconditional
write into the frame's own map. -/
def envDefine (s : LoxState) (a : Nat) (name : String) (v : Value) : LoxState :=
  match s.envs[a]? with
  | some fr => { s with envs := s.envs.set a { fr with values := assocSet fr.values name v } }
  | none => s

/-- Modelled from the spec: `environment.assign(name, v)` — walk the chain;
write where the name is found, else fail with
`Undefined variable 'name'.`.  The walk is bounded by the store size
(Go chains are acyclic); exhausting the bound yields the same error. -/
def envAssignChain (s : LoxState) : Nat → Nat → Token → Value → Outcome LoxState
  | 0, _, name, _ =>
      .err (.runtime name ("Undefined variable '" ++ name.lexeme ++ "'."))
  | f + 1, a, name, v =>
      match s.envs[a]? with
      | some fr =>
          match assocGet fr.values name.lexeme with
          | some _ =>
              .ok { s with
                      envs := s.envs.set a { fr with values := assocSet fr.values name.lexeme v } }
          | none =>
              match fr.enclosing with
              | some p => envAssignChain s f p name v
              | none => .err (.runtime name ("Undefined variable '" ++ name.lexeme ++ "'."))
      | none => .err (.runtime name ("Undefined variable '" ++ name.lexeme ++ "'."))

/-- Modelled from the spec: `environment.get(name)` — walk the chain; fail
with `Undefined variable 'name'.` when the name is nowhere defined. -/
def envGetChain (s : LoxState) : Nat → Nat → Token → Outcome Value
  | 0, _, name =>
      .err (.runtime name ("Undefined variable '" ++ name.lexeme ++ "'."))
  | f + 1, a, name =>
      match s.envs[a]? with
      | some fr =>
          match assocGet fr.values name.lexeme with
          | some v => .ok v
          | none =>
              match fr.enclosing with
              | some p => envGetChain s f p name
              | none => .err (.runtime name ("Undefined variable '" ++ name.lexeme ++ "'."))
      | none => .err (.runtime name ("Undefined variable '" ++ name.lexeme ++ "'."))

/-- Allocate a fresh environment frame (`newEnvironment`). -/
def allocEnv (s : LoxState) (fr : EnvFrame) : Nat × LoxState :=
  (s.envs.length, { s with envs := s.envs ++ [fr] })

/-- Allocate a fresh heap object. -/
def allocObj (s : LoxState) (o : HeapObj) : Nat × LoxState :=
  (s.heap.length, { s with heap := s.heap ++ [o] })

/-- Go's `callee.(callable)` type assertion: functions, classes and the
native clock implement `callable`; instances and primitives do not. -/
def asCallable (s : LoxState) (v : Value) : Option Nat :=
  match v with
  | .vref a =>
      match s.heap[a]? with
      | some .clockFn => some a
      | some (.funcObj _ _ _) => some a
      | some (.classObj _ _ _) => some a
      | some (.instObj _ _) => none
      | none => none
  | _ => none

/-- Go's `obj.(*instance)` type assertion. -/
def asInstance (s : LoxState) (v : Value) : Option Nat :=
  match v with
  | .vref a =>
      match s.heap[a]? with
      | some (.instObj _ _) => some a
      | _ => none
  | _ => none

/-- Go's `obj.(*class)` type assertion. -/
def asClass (s : LoxState) (v : Value) : Option Nat :=
  match v with
  | .vref a =>
      match s.heap[a]? with
      | some (.classObj _ _ _) => some a
      | _ => none
  | _ => none

/-- Modelled from the spec: `class.findMethod(name)` (`class.go` is not
among the provided sources) — own method table first, else the superclass
chain; the walk is bounded by the heap size (class chains are acyclic:
self-inheritance is a resolve error). -/
def findMethod (s : LoxState) : Nat → Nat → String → Option Nat
  | 0, _, _ => none
  | f + 1, ca, n =>
      match s.heap[ca]? with
      | some (.classObj _ sup ms) =>
          match assocGet ms n with
          | some fa => some fa
          | none =>
              match sup with
              | some sa => findMethod s f sa n
              | none => none
      | _ => none

/-- Arity of a user function object. -/
def funcArity (s : LoxState) (fa : Nat) : Nat :=
  match s.heap[fa]? with
  | some (.funcObj d _ _) => d.params.length
  | _ => 0

/-- Modelled from the spec: `callable.arity()` — clock is 0-ary, a user
function's arity is its parameter count, a class's arity is its `init`
method's arity (0 when there is none). -/
def arityOf (s : LoxState) (a : Nat) : Nat :=
  match s.heap[a]? with
  | some .clockFn => 0
  | some (.funcObj d _ _) => d.params.length
  | some (.classObj _ _ _) =>
      match findMethod s (s.heap.length + 1) a "init" with
      | some fa => funcArity s fa
      | none => 0
  | _ => 0

/-- Modelled from the spec: `truthy` — `nil` and `false` are falsy,
everything else is truthy. -/
def truthy : Value → Bool
  | .vnil => false
  | .vbool b => b
  | _ => true

/-- Modelled from the spec (§4.4.2): `stringify`.  Number rendering
abstracts the Go decimal formatting (numbers are modelled as `ℚ`); no
claim depends on the digits produced. -/
def stringify (s : LoxState) (v : Value) : String :=
  match v with
  | .vnil => "nil"
  | .vbool true => "true"
  | .vbool false => "false"
  | .vnum q => if q.den = 1 then toString q.num else toString q.num ++ "/" ++ toString q.den
  | .vstr t => t
  | .vref a =>
      match s.heap[a]? with
      | some .clockFn => "<native fn>"
      | some (.funcObj d _ _) => "<fn " ++ d.nameTok.lexeme ++ ">"
      | some (.classObj n _ _) => n
      | some (.instObj ca _) =>
          (match s.heap[ca]? with
           | some (.classObj n _ _) => n
           | _ => "") ++ " instance"
      | none => "nil"

/-- The operator dispatch of `VisitBinaryExpr` (`interpreter.go:198-287`),
as a function of the operator token and the two already-evaluated operand
values.  Go panics `"Unreachable"` on any other token kind, modelled as
`.out`. -/
def evalBinaryOp (op : Token) (lhs rhs : Value) : Outcome Value :=
  match op.type with
  | .BANG_EQUAL => .ok (.vbool (!goEq lhs rhs))
  | .EQUAL_EQUAL => .ok (.vbool (goEq lhs rhs))
  | .GREATER =>
      match lhs, rhs with
      | .vnum a, .vnum b => .ok (.vbool (decide (b < a)))
      | _, _ => .err (.runtime op "Operands must be numbers.")
  | .GREATER_EQUAL =>
      match lhs, rhs with
      | .vnum a, .vnum b => .ok (.vbool (decide (b ≤ a)))
      | _, _ => .err (.runtime op "Operands must be numbers.")
  | .LESS =>
      match lhs, rhs with
      | .vnum a, .vnum b => .ok (.vbool (decide (a < b)))
      | _, _ => .err (.runtime op "Operands must be numbers.")
  | .LESS_EQUAL =>
      match lhs, rhs with
      | .vnum a, .vnum b => .ok (.vbool (decide (a ≤ b)))
      | _, _ => .err (.runtime op "Operands must be numbers.")
  | .MINUS =>
      match lhs, rhs with
      | .vnum a, .vnum b => .ok (.vnum (a - b))
      | _, _ => .err (.runtime op "Operands must be numbers.")
  | .PLUS =>
      match lhs, rhs with
      | .vstr a, .vstr b => .ok (.vstr (a ++ b))
      | .vnum a, .vnum b => .ok (.vnum (a + b))
      | _, _ => .err (.runtime op "Operands must be two numbers or two strings.")
  | .SLASH =>
      match lhs, rhs with
      | .vnum a, .vnum b => .ok (.vnum (a / b))
      | _, _ => .err (.runtime op "Operands must be numbers.")
  | .STAR =>
      match lhs, rhs with
      | .vnum a, .vnum b => .ok (.vnum (a * b))
      | _, _ => .err (.runtime op "Operands must be numbers.")
  | _ => .out

/-- Modelled from the spec: `instance.set` (`instance.go` is not among the
provided sources) — an unconditional write into the instance's field
table. -/
def instSet (s : LoxState) (a : Nat) (name : String) (v : Value) : LoxState :=
  match s.heap[a]? with
  | some (.instObj c fields) =>
      { s with heap := s.heap.set a (.instObj c (assocSet fields name v)) }
  | _ => s

/-- Bind parameters to argument values in declaration order
(`function.call` defines each parameter in the fresh frame; arity was
checked by the caller, so the lists have equal length there). -/
def paramBind : List Token → List Value → List (String × Value)
  | [], _ => []
  | _, [] => []
  | p :: ps, v :: vs => (p.lexeme, v) :: paramBind ps vs

/-- Allocate one `funcObj` per method of a class declaration, capturing the
given environment; a method named `init` is an initializer
(`VisitClassStmt`, `interpreter.go:90-95`). -/
def allocMethods (envA : Nat) : List FunctionDecl → LoxState → List (String × Nat) × LoxState
  | [], s => ([], s)
  | d :: rest, s =>
      let isInit := d.nameTok.lexeme = "init"
      let (fa, s1) := allocObj s (.funcObj d envA isInit)
      let (ms, s2) := allocMethods envA rest s1
      (assocSet ms d.nameTok.lexeme fa, s2)

/-- Modelled from the spec: `function.bind(this)` — a copy of the function
whose closure is a fresh frame binding `this` to the receiver. -/
def bindFn (s : LoxState) (fa : Nat) (thisVal : Value) : Nat × LoxState :=
  match s.heap[fa]? with
  | some (.funcObj d clo isInit) =>
      let (ea, s1) := allocEnv s { values := [("this", thisVal)], enclosing := some clo }
      allocObj s1 (.funcObj d ea isInit)
  | _ => (fa, s)

/-- The enclosing frame of an environment (`env.enclosing`); Go would
nil-panic on a missing link, which is unreachable where this is used. -/
def envEnclosing (s : LoxState) (a : Nat) : Nat :=
  match s.envs[a]? with
  | some fr => fr.enclosing.getD a
  | none => a

/-- `Interpreter.lookUpVar` (`interpreter.go:461-467`): a resolver distance
means `getAt`, otherwise the name is read from globals. -/
def lookUpVar (I : Interp) (s : LoxState) (id : Nat) (name : Token) : Outcome Value :=
  match assocGet I.locals id with
  | some steps => .ok (envGetAt s s.envAddr steps name.lexeme)
  | none => envGetChain s (s.envs.length + 1) I.globalsAddr name

/-- The result carried by a successful evaluation step: Go's
`(interface{}, error)` pair carries a single value; the argument-list
helper of `VisitCallExpr` carries a list. -/
inductive Res where
  | val (v : Value)
  | vals (vs : List Value)

/-- A unit of work for the evaluator: the mutually recursive Go methods
(`eval`, the `VisitXxx` expression/statement visitors, `execBlock`, the
argument loop of `VisitCallExpr`, `callable.call`) become branches of one
fuel-indexed function over this sum. -/
inductive Job where
  | exprT (e : Expr)
  | argsT (es : List Expr)
  | stmtT (st : Stmt)
  | stmtsT (sts : List Stmt)
  | blockT (stmts : List Stmt) (envA : Nat)
  | callT (addr : Nat) (args : List Value)
  | callFnT (decl : FunctionDecl) (closure : Nat) (isInit : Bool) (args : List Value)

/-- Sequence a step that must produce a single value — the Go pattern
`v, err := in.eval(e); if err != nil { return nil, err }`. -/
def bindVal (r : Outcome Res × LoxState) (k : Value → LoxState → Outcome Res × LoxState) :
    Outcome Res × LoxState :=
  match r with
  | (.ok (.val v), s) => k v s
  | (.ok (.vals _), s) => (.out, s)
  | (.err e, s) => (.err e, s)
  | (.out, s) => (.out, s)

/-- Sequence a step that must produce a value list (the evaluated
arguments of a call). -/
def bindVals (r : Outcome Res × LoxState) (k : List Value → LoxState → Outcome Res × LoxState) :
    Outcome Res × LoxState :=
  match r with
  | (.ok (.vals vs), s) => k vs s
  | (.ok (.val _), s) => (.out, s)
  | (.err e, s) => (.err e, s)
  | (.out, s) => (.out, s)

/-- The evaluator.  Each branch is the direct translation of the
corresponding method of `interpreter.go` (named in comments); the missing
runtime sources (`function.go`, `class.go`, `instance.go`) are modelled
from the spec (§4.4.1, §4.5) in the `callT`/`callFnT`/`get` branches.
Fuel only bounds recursion depth; `.out` marks exhaustion. -/
def interp (I : Interp) : Nat → Job → LoxState → Outcome Res × LoxState
  | 0, _, s => (.out, s)
  | f + 1, j, s =>
    match j with
    -- VisitLiteralExpr
    | .exprT (.literal v) => (.ok (.val v), s)
    -- VisitGroupExpr
    | .exprT (.group inner) => interp I f (.exprT inner) s
    -- VisitUnaryExpr
    | .exprT (.unary op e) =>
        bindVal (interp I f (.exprT e) s) fun v s1 =>
          match op.type with
          | .BANG => (.ok (.val (.vbool (!truthy v))), s1)
          | .MINUS =>
              match v with
              | .vnum q => (.ok (.val (.vnum (-q))), s1)
              | _ => (.err (.runtime op "Operand must be a number."), s1)
          | _ => (.out, s1)
    -- VisitBinaryExpr: evaluate LHS, then RHS, then dispatch on the operator
    | .exprT (.binary lhs op rhs) =>
        bindVal (interp I f (.exprT lhs) s) fun lv s1 =>
          bindVal (interp I f (.exprT rhs) s1) fun rv s2 =>
            match evalBinaryOp op lv rv with
            | .ok v => (.ok (.val v), s2)
            | .err e => (.err e, s2)
            | .out => (.out, s2)
    -- VisitLogicalExpr
    | .exprT (.logical lhs op rhs) =>
        bindVal (interp I f (.exprT lhs) s) fun lv s1 =>
          match op.type with
          | .OR => if truthy lv then (.ok (.val lv), s1) else interp I f (.exprT rhs) s1
          | .AND => if truthy lv then interp I f (.exprT rhs) s1 else (.ok (.val lv), s1)
          | _ => (.out, s1)
    -- VisitVarExpr
    | .exprT (.varE id name) =>
        (match lookUpVar I s id name with
         | .ok v => (.ok (.val v), s)
         | .err e => (.err e, s)
         | .out => (.out, s))
    -- VisitThisExpr: looked up like a variable
    | .exprT (.thisE id keyword) =>
        (match lookUpVar I s id keyword with
         | .ok v => (.ok (.val v), s)
         | .err e => (.err e, s)
         | .out => (.out, s))
    -- VisitAssignExpr
    | .exprT (.assign id name rhs) =>
        bindVal (interp I f (.exprT rhs) s) fun v s1 =>
          match assocGet I.locals id with
          | some steps => (.ok (.val v), envAssignAt s1 steps name.lexeme v)
          | none =>
              match envAssignChain s1 (s1.envs.length + 1) I.globalsAddr name v with
              | .ok s2 => (.ok (.val v), s2)
              | .err e => (.err e, s1)
              | .out => (.out, s1)
    -- VisitCallExpr: callee, then arguments left-to-right, then the
    -- callable check, then the arity check, then dispatch
    | .exprT (.call callee paren args) =>
        bindVal (interp I f (.exprT callee) s) fun cv s1 =>
          bindVals (interp I f (.argsT args) s1) fun vs s2 =>
            match asCallable s2 cv with
            | none => (.err (.runtime paren "Can only call functions and classes."), s2)
            | some ca =>
                if vs.length ≠ arityOf s2 ca then
                  (.err (.runtime paren ("Expected " ++ toString (arityOf s2 ca) ++
                     " arguments but got " ++ toString vs.length ++ ".")), s2)
                else interp I f (.callT ca vs) s2
    -- VisitGetExpr with instance.get modelled from the spec
    | .exprT (.get obj name) =>
        bindVal (interp I f (.exprT obj) s) fun ov s1 =>
          match asInstance s1 ov with
          | none => (.err (.runtime name "Only instances have properties."), s1)
          | some ia =>
              match s1.heap[ia]? with
              | some (.instObj ca fields) =>
                  (match assocGet fields name.lexeme with
                   | some v => (.ok (.val v), s1)
                   | none =>
                       match findMethod s1 (s1.heap.length + 1) ca name.lexeme with
                       | some fa =>
                           let (ba, s2) := bindFn s1 fa (.vref ia)
                           (.ok (.val (.vref ba)), s2)
                       | none =>
                           (.err (.runtime name
                              ("Undefined property '" ++ name.lexeme ++ "'.")), s1))
              | _ => (.out, s1)
    -- VisitSetExpr: evaluate object, require instance, evaluate value,
    -- write the field unconditionally, yield the value
    | .exprT (.setE obj name valE) =>
        bindVal (interp I f (.exprT obj) s) fun ov s1 =>
          match asInstance s1 ov with
          | none => (.err (.runtime name "Only instances have fields."), s1)
          | some ia =>
              bindVal (interp I f (.exprT valE) s1) fun v s2 =>
                (.ok (.val v), instSet s2 ia name.lexeme v)
    -- VisitSuperExpr
    | .exprT (.superE id _keyword method) =>
        let steps := (assocGet I.locals id).getD 0
        let sv := envGetAt s s.envAddr steps "super"
        let tv := envGetAt s s.envAddr (steps - 1) "this"
        (match asClass s sv with
         | none => (.out, s)
         | some supA =>
             match findMethod s (s.heap.length + 1) supA method.lexeme with
             | none =>
                 (.err (.runtime method ("Undefined property '" ++ method.lexeme ++ "'.")), s)
             | some fa =>
                 let (ba, s1) := bindFn s fa tv
                 (.ok (.val (.vref ba)), s1))
    -- the argument loop of VisitCallExpr (strictly left-to-right)
    | .argsT [] => (.ok (.vals []), s)
    | .argsT (e :: es) =>
        bindVal (interp I f (.exprT e) s) fun v s1 =>
          bindVals (interp I f (.argsT es) s1) fun vs s2 =>
            (.ok (.vals (v :: vs)), s2)
    -- VisitBlockStmt
    | .stmtT (.block stmts) =>
        let (ea, s1) := allocEnv s { values := [], enclosing := some s.envAddr }
        interp I f (.blockT stmts ea) s1
    -- VisitExprStmt
    | .stmtT (.exprS e) =>
        bindVal (interp I f (.exprT e) s) fun v s1 =>
          if I.isREPL then
            match e with
            | .assign _ _ _ => (.ok (.val .vnil), s1)
            | .call _ _ _ => (.ok (.val .vnil), s1)
            | _ => (.ok (.val .vnil), { s1 with output := s1.output ++ [stringify s1 v] })
          else (.ok (.val .vnil), s1)
    -- VisitPrintStmt
    | .stmtT (.print e) =>
        bindVal (interp I f (.exprT e) s) fun v s1 =>
          (.ok (.val .vnil), { s1 with output := s1.output ++ [stringify s1 v] })
    -- VisitVarStmt
    | .stmtT (.varS name initE) =>
        (match initE with
         | none => (.ok (.val .vnil), envDefine s s.envAddr name.lexeme .vnil)
         | some ie =>
             bindVal (interp I f (.exprT ie) s) fun v s1 =>
               (.ok (.val .vnil), envDefine s1 s1.envAddr name.lexeme v))
    -- VisitIfStmt
    | .stmtT (.ifS cond thenBranch elseBranch) =>
        bindVal (interp I f (.exprT cond) s) fun cv s1 =>
          if truthy cv then interp I f (.stmtT thenBranch) s1
          else
            match elseBranch with
            | some el => interp I f (.stmtT el) s1
            | none => (.ok (.val .vnil), s1)
    -- VisitWhileStmt
    | .stmtT (.whileS cond body) =>
        bindVal (interp I f (.exprT cond) s) fun cv s1 =>
          if truthy cv then
            match interp I f (.stmtT body) s1 with
            | (.ok _, s2) => interp I f (.stmtT (.whileS cond body)) s2
            | r => r
          else (.ok (.val .vnil), s1)
    -- VisitReturnStmt: the nonlocal-return signal
    | .stmtT (.returnS _keyword valE) =>
        (match valE with
         | none => (.err (.callReturn .vnil), s)
         | some ve =>
             bindVal (interp I f (.exprT ve) s) fun v s1 =>
               (.err (.callReturn v), s1))
    -- VisitFunctionStmt
    | .stmtT (.functionS d) =>
        let (fa, s1) := allocObj s (.funcObj d s.envAddr false)
        (.ok (.val .vnil), envDefine s1 s1.envAddr d.nameTok.lexeme (.vref fa))
    -- VisitClassStmt
    | .stmtT (.classS name superV methods) =>
        (match superV with
         | none =>
             let (ms, s1) := allocMethods s.envAddr methods s
             let (ca, s2) := allocObj s1 (.classObj name.lexeme none ms)
             (.ok (.val .vnil), envDefine s2 s2.envAddr name.lexeme (.vref ca))
         | some (sid, stok) =>
             bindVal (interp I f (.exprT (.varE sid stok)) s) fun sv s1 =>
               match asClass s1 sv with
               | none => (.err (.runtime stok "Superclass must be a class."), s1)
               | some supA =>
                   let (ea, s2) :=
                     allocEnv s1 { values := [("super", sv)], enclosing := some s1.envAddr }
                   let s3 := { s2 with envAddr := ea }
                   let (ms, s4) := allocMethods s3.envAddr methods s3
                   let (ca, s5) := allocObj s4 (.classObj name.lexeme (some supA) ms)
                   let s6 := { s5 with envAddr := envEnclosing s5 s5.envAddr }
                   (.ok (.val .vnil), envDefine s6 s6.envAddr name.lexeme (.vref ca)))
    -- the statement loop of execBlock / Interpret
    | .stmtsT [] => (.ok (.val .vnil), s)
    | .stmtsT (st :: rest) =>
        (match interp I f (.stmtT st) s with
         | (.ok _, s1) => interp I f (.stmtsT rest) s1
         | r => r)
    -- execBlock (interpreter.go:435-447): save the current environment,
    -- run in the child, restore on EVERY exit (the Go defer)
    | .blockT stmts envA =>
        let res := interp I f (.stmtsT stmts) { s with envAddr := envA }
        (res.1, { res.2 with envAddr := s.envAddr })
    -- callable.call dispatch
    | .callT ca argv =>
        (match s.heap[ca]? with
         -- functionClock.call: wall-clock seconds, modelled as 0
         | some .clockFn => (.ok (.val (.vnum 0)), s)
         | some (.funcObj d clo isInit) => interp I f (.callFnT d clo isInit argv) s
         -- class.call modelled from the spec: allocate the instance, run
         -- `init` bound to it when present, return the instance
         | some (.classObj _ _ _) =>
             let (ia, s1) := allocObj s (.instObj ca [])
             (match findMethod s1 (s1.heap.length + 1) ca "init" with
              | some initFa =>
                  let (ba, s2) := bindFn s1 initFa (.vref ia)
                  (match interp I f (.callT ba argv) s2 with
                   | (.ok _, s3) => (.ok (.val (.vref ia)), s3)
                   | (.err e, s3) => (.err e, s3)
                   | (.out, s3) => (.out, s3))
              | none => (.ok (.val (.vref ia)), s1))
         | some (.instObj _ _) => (.out, s)
         | none => (.out, s))
    -- function.call modelled from the spec (§4.4.1): fresh frame over the
    -- closure, bind parameters, run the body as a block, catch the
    -- return signal; an initializer always yields the bound `this`
    | .callFnT d clo isInit argv =>
        let (ea, s1) := allocEnv s { values := paramBind d.params argv, enclosing := some clo }
        (match interp I f (.blockT d.body ea) s1 with
         | (.ok _, s2) =>
             if isInit then (.ok (.val (envGetAt s2 clo 0 "this")), s2)
             else (.ok (.val .vnil), s2)
         | (.err (.callReturn v), s2) =>
             if isInit then (.ok (.val (envGetAt s2 clo 0 "this")), s2)
             else (.ok (.val v), s2)
         | (.err (.runtime t m), s2) => (.err (.runtime t m), s2)
         | (.out, s2) => (.out, s2))

/-- Project a single-value result (Go callers of `eval`/`exec` expect one
`interface{}` value). -/
def asVal (p : Outcome Res × LoxState) : Outcome Value × LoxState :=
  match p with
  | (.ok (.val v), s) => (.ok v, s)
  | (.ok (.vals _), s) => (.out, s)
  | (.err e, s) => (.err e, s)
  | (.out, s) => (.out, s)

/-- Project a value-list result. -/
def asVals (p : Outcome Res × LoxState) : Outcome (List Value) × LoxState :=
  match p with
  | (.ok (.vals vs), s) => (.ok vs, s)
  | (.ok (.val _), s) => (.out, s)
  | (.err e, s) => (.err e, s)
  | (.out, s) => (.out, s)

/-- `Interpreter.eval` — evaluate one expression. -/
def eval (I : Interp) (fuel : Nat) (e : Expr) (s : LoxState) : Outcome Value × LoxState :=
  asVal (interp I fuel (.exprT e) s)

/-- The argument-evaluation loop of `VisitCallExpr`. -/
def evalArgs (I : Interp) (fuel : Nat) (es : List Expr) (s : LoxState) :
    Outcome (List Value) × LoxState :=
  asVals (interp I fuel (.argsT es) s)

/-- `Interpreter.exec` — execute one statement. -/
def exec (I : Interp) (fuel : Nat) (st : Stmt) (s : LoxState) : Outcome Value × LoxState :=
  asVal (interp I fuel (.stmtT st) s)

/-- `Interpreter.execBlock` — run the statements in the given child
environment and restore the previous one. -/
def execBlock (I : Interp) (fuel : Nat) (stmts : List Stmt) (envA : Nat) (s : LoxState) :
    Outcome Value × LoxState :=
  asVal (interp I fuel (.blockT stmts envA) s)

/-- Is the expression an assignment or a call at its head — the Go type
switch `switch stmt.Expr.(type) \x7b case *AssignExpr, *CallExpr ... \x7d`
in `VisitExprStmt`. -/
def isAssignOrCall : Expr → Bool
  | .assign _ _ _ => true
  | .call _ _ _ => true
  | _ => false

/-- An error handed to the reporter: Go classifies by the dynamic type
test `err.(*runtimeError)`. -/
inductive GoErr where
  | runtimeE (tok : Token) (msg : String)
  | staticE (msg : String)
  deriving DecidableEq, Repr

/-- Rendering of a reported error (modelled from the spec's message
formats, §6; the `Error()` methods are not among the provided sources). -/
def errText : GoErr → String
  | .runtimeE tok msg => msg ++ "\n[line " ++ toString tok.line ++ "]"
  | .staticE msg => msg

/-- `lox.SimpleReporter`: output sink plus the two error flags
(`reporter.go` / `part_001`; the two versions share everything except
`Reset`). -/
structure SimpleReporter where
  output : List String
  hadErr : Bool
  hadRuntimeErr : Bool
  deriving DecidableEq, Repr

/-- `SimpleReporter.Report`: print the error, then set `hadRuntimeErr` for
a runtime error and `hadErr` for every other error. -/
def SimpleReporter.report (r : SimpleReporter) (e : GoErr) : SimpleReporter :=
  let r1 := { r with output := r.output ++ [errText e] }
  match e with
  | .runtimeE _ _ => { r1 with hadRuntimeErr := true }
  | .staticE _ => { r1 with hadErr := true }

/-- `SimpleReporter.Reset` as written in `glox/internal/lox/reporter.go`
(lines 39-41): only `hadErr` is cleared. -/
def SimpleReporter.resetLox (r : SimpleReporter) : SimpleReporter :=
  { r with hadErr := false }

/-- `SimpleReporter.Reset` as written in the newer copy of the same file
(`src/unnamed/part_001`, lines 43-46): both flags are cleared. -/
def SimpleReporter.resetCurrent (r : SimpleReporter) : SimpleReporter :=
  { r with hadErr := false, hadRuntimeErr := false }

/-- `SimpleReporter.HadError`. -/
def SimpleReporter.hadError (r : SimpleReporter) : Bool := r.hadErr

/-- `SimpleReporter.HadRuntimeError`. -/
def SimpleReporter.hadRuntimeError (r : SimpleReporter) : Bool := r.hadRuntimeErr

/-- The exit logic of `main` (`src/unnamed/part_000`, lines 15-32):
`args` is `os.Args[1:]`; `after` is the reporter as it stands when the
run has finished.  Returns the usage output and the process exit code:
more than one argument prints the usage line and exits 64 before any run;
otherwise the program exits 65 when `HadError()` reports true and falls
off `main` (exit 0) in every other case — `HadRuntimeError()` is never
consulted. -/
def mainRun (args : List String) (after : SimpleReporter) : List String × Nat :=
  if args.length > 1 then (["Usage: glox [script]"], 64)
  else if after.hadError then ([], 65)
  else ([], 0)

/-! ### Inversion helpers for the wrappers -/

theorem asVal_ok {p : Outcome Res × LoxState} {v : Value} {s' : LoxState} :
    asVal p = (.ok v, s') ↔ p = (.ok (.val v), s') := by
  obtain ⟨r, st⟩ := p
  cases r with
  | ok rr => cases rr <;> simp [asVal]
  | err e => simp [asVal]
  | out => simp [asVal]

theorem asVal_err {p : Outcome Res × LoxState} {e : LoxError} {s' : LoxState} :
    asVal p = (.err e, s') ↔ p = (.err e, s') := by
  obtain ⟨r, st⟩ := p
  cases r with
  | ok rr => cases rr <;> simp [asVal]
  | err e0 => simp [asVal]
  | out => simp [asVal]

theorem asVals_ok {p : Outcome Res × LoxState} {vs : List Value} {s' : LoxState} :
    asVals p = (.ok vs, s') ↔ p = (.ok (.vals vs), s') := by
  obtain ⟨r, st⟩ := p
  cases r with
  | ok rr => cases rr <;> simp [asVals]
  | err e0 => simp [asVals]
  | out => simp [asVals]

theorem asVals_err {p : Outcome Res × LoxState} {e : LoxError} {s' : LoxState} :
    asVals p = (.err e, s') ↔ p = (.err e, s') := by
  obtain ⟨r, st⟩ := p
  cases r with
  | ok rr => cases rr <;> simp [asVals]
  | err e0 => simp [asVals]
  | out => simp [asVals]

theorem asVal_snd (p : Outcome Res × LoxState) : (asVal p).2 = p.2 := by
  obtain ⟨r, st⟩ := p
  cases r with
  | ok rr => cases rr <;> simp [asVal]
  | err e0 => simp [asVal]
  | out => simp [asVal]

/-- C2: For every statement list and child environment passed to
`execBlock`, the interpreter's current environment after `execBlock`
returns equals the environment current before the call — unconditionally,
hence on every exit path: normal completion, a runtime error raised by
some statement, a propagating return signal (and the embedding's
fuel-exhaustion marker).  This is the Go `defer` in
`interpreter.go:435-447` restoring `in.environment`. -/
theorem execBlock_restores_environment (I : Interp) (fuel : Nat)
    (stmts : List Stmt) (envA : Nat) (s : LoxState) :
    ((execBlock I fuel stmts envA s).2).envAddr = s.envAddr := by
  unfold execBlock
  rw [asVal_snd]
  cases fuel with
  | zero => simp [interp]
  | succ f => simp [interp]

/-! ### Concrete fixtures used by the witnesses -/

/-- A non-REPL interpreter with empty resolver table. -/
def I0 : Interp := { globalsAddr := 0, locals := [], isREPL := false }

/-- A REPL interpreter with empty resolver table. -/
def IR : Interp := { globalsAddr := 0, locals := [], isREPL := true }

/-- The empty state. -/
def s0 : LoxState := { envs := [], heap := [], envAddr := 0, output := [] }

/-- A state whose single global frame defines `x` as `nil`. -/
def sx : LoxState :=
  { envs := [{ values := [("x", .vnil)], enclosing := none }], heap := [], envAddr := 0,
    output := [] }

/-- `sx` after `x` has been assigned the number `5`. -/
def sx5 : LoxState :=
  { envs := [{ values := [("x", .vnum 5)], enclosing := none }], heap := [], envAddr := 0,
    output := [] }

/-- A state whose heap holds the class `Foo` at address 0 and a fieldless
`Foo` instance at address 1. -/
def sInst : LoxState :=
  { envs := [], heap := [.classObj "Foo" none [], .instObj 0 []], envAddr := 0, output := [] }

/-- A state whose heap holds only the native clock at address 0. -/
def sClock : LoxState :=
  { envs := [], heap := [.clockFn], envAddr := 0, output := [] }

/-- C3: `a != b` evaluates to exactly the boolean negation of `a == b` and
equality never raises an error (first conjunct); `nil == nil`; values of
different dynamic types are unequal; primitives of the same type compare
structurally; heap values (callables/instances) compare by identity of
their address; and `VisitBinaryExpr` feeds exactly the two operand values
into this dispatch (last conjunct). -/
theorem equality_semantics :
    (∀ (opE opN : Token) (a b : Value), opE.type = .EQUAL_EQUAL → opN.type = .BANG_EQUAL →
       evalBinaryOp opE a b = .ok (.vbool (goEq a b)) ∧
       evalBinaryOp opN a b = .ok (.vbool (!goEq a b)))
  ∧ goEq .vnil .vnil = true
  ∧ (∀ a b : Value, vtag a ≠ vtag b → goEq a b = false)
  ∧ (∀ b1 b2 : Bool, goEq (.vbool b1) (.vbool b2) = decide (b1 = b2))
  ∧ (∀ q1 q2 : ℚ, goEq (.vnum q1) (.vnum q2) = decide (q1 = q2))
  ∧ (∀ t1 t2 : String, goEq (.vstr t1) (.vstr t2) = decide (t1 = t2))
  ∧ (∀ a1 a2 : Nat, goEq (.vref a1) (.vref a2) = decide (a1 = a2))
  ∧ (∀ (I : Interp) (fuel : Nat) (lhs : Expr) (op : Token) (rhs : Expr)
       (s : LoxState) (lv : Value) (s1 : LoxState) (rv : Value) (s2 : LoxState),
       eval I fuel lhs s = (.ok lv, s1) → eval I fuel rhs s1 = (.ok rv, s2) →
       eval I (fuel + 1) (.binary lhs op rhs) s = (evalBinaryOp op lv rv, s2)) := by
  refine ⟨?_, ?_, ?_, ?_, ?_, ?_, ?_, ?_⟩
  · intro opE opN a b hE hN
    exact ⟨by simp [evalBinaryOp, hE], by simp [evalBinaryOp, hN]⟩
  · rfl
  · intro a b h
    cases a <;> cases b <;> first | exact absurd rfl h | rfl
  · intro b1 b2; simp [goEq]
  · intro q1 q2; simp [goEq]
  · intro t1 t2; simp [goEq]
  · intro a1 a2; simp [goEq]
  · intro I fuel lhs op rhs s lv s1 rv s2 hl hr
    rw [eval] at hl hr ⊢
    rw [asVal_ok] at hl hr
    simp only [interp]
    rw [hl]
    simp only [bindVal]
    rw [hr]
    simp only [bindVal]
    cases evalBinaryOp op lv rv <;> simp [asVal]

/-- C3 witness: the conjuncts of `equality_semantics` at concrete inputs:
`1 == nil` evaluates without error to the `goEq` verdict, which is
`false` because the dynamic types differ, and the negation relationship
at the same inputs. -/
theorem equality_semantics_witness :
    (evalBinaryOp { type := .EQUAL_EQUAL, lexeme := "==", line := 1 } (.vnum 1) .vnil
       = .ok (.vbool (goEq (.vnum 1) .vnil))
     ∧ evalBinaryOp { type := .BANG_EQUAL, lexeme := "!=", line := 1 } (.vnum 1) .vnil
       = .ok (.vbool (!goEq (.vnum 1) .vnil)))
  ∧ goEq (.vnum 1) .vnil = false
  ∧ eval I0 2 (.binary (.literal (.vnum 1)) { type := .EQUAL_EQUAL, lexeme := "==", line := 1 }
       (.literal .vnil)) s0
      = (evalBinaryOp { type := .EQUAL_EQUAL, lexeme := "==", line := 1 } (.vnum 1) .vnil, s0) := by
  refine ⟨⟨?_, ?_⟩, ?_, ?_⟩
  · exact (equality_semantics.1 { type := .EQUAL_EQUAL, lexeme := "==", line := 1 }
      { type := .BANG_EQUAL, lexeme := "!=", line := 1 } (.vnum 1) .vnil rfl rfl).1
  · exact (equality_semantics.1 { type := .EQUAL_EQUAL, lexeme := "==", line := 1 }
      { type := .BANG_EQUAL, lexeme := "!=", line := 1 } (.vnum 1) .vnil rfl rfl).2
  · exact equality_semantics.2.2.1 (.vnum 1) .vnil (by decide)
  · exact equality_semantics.2.2.2.2.2.2.2 I0 1 (.literal (.vnum 1))
      { type := .EQUAL_EQUAL, lexeme := "==", line := 1 } (.literal .vnil) s0
      (.vnum 1) s0 .vnil s0 rfl rfl

/-- C4: the `+` case of `VisitBinaryExpr` (`interpreter.go:252-266`): two
numbers add, two strings concatenate, and every other pair of operand
values fails with `Operands must be two numbers or two strings.` -/
theorem plus_operator_semantics (op : Token) (hop : op.type = .PLUS) :
    (∀ q1 q2 : ℚ, evalBinaryOp op (.vnum q1) (.vnum q2) = .ok (.vnum (q1 + q2)))
  ∧ (∀ t1 t2 : String, evalBinaryOp op (.vstr t1) (.vstr t2) = .ok (.vstr (t1 ++ t2)))
  ∧ (∀ a b : Value,
       (∀ q1 q2 : ℚ, ¬(a = .vnum q1 ∧ b = .vnum q2)) →
       (∀ t1 t2 : String, ¬(a = .vstr t1 ∧ b = .vstr t2)) →
       evalBinaryOp op a b = .err (.runtime op "Operands must be two numbers or two strings.")) := by
  refine ⟨?_, ?_, ?_⟩
  · intro q1 q2; simp [evalBinaryOp, hop]
  · intro t1 t2; simp [evalBinaryOp, hop]
  · intro a b hnum hstr
    cases a <;> cases b <;>
      first
      | exact absurd ⟨rfl, rfl⟩ (hnum _ _)
      | exact absurd ⟨rfl, rfl⟩ (hstr _ _)
      | simp [evalBinaryOp, hop]

/-- C4 witness: `plus_operator_semantics` at a concrete `+` token:
number addition, string concatenation, and the mixed pair
`1 + "a"` raising the runtime error. -/
theorem plus_operator_semantics_witness :
    evalBinaryOp { type := .PLUS, lexeme := "+", line := 1 } (.vnum 1) (.vnum 2)
      = .ok (.vnum (1 + 2))
  ∧ evalBinaryOp { type := .PLUS, lexeme := "+", line := 1 } (.vstr "fo") (.vstr "o")
      = .ok (.vstr ("fo" ++ "o"))
  ∧ evalBinaryOp { type := .PLUS, lexeme := "+", line := 1 } (.vnum 1) (.vstr "a")
      = .err (.runtime { type := .PLUS, lexeme := "+", line := 1 }
          "Operands must be two numbers or two strings.") := by
  refine ⟨?_, ?_, ?_⟩
  · exact (plus_operator_semantics { type := .PLUS, lexeme := "+", line := 1 } rfl).1 1 2
  · exact (plus_operator_semantics { type := .PLUS, lexeme := "+", line := 1 } rfl).2.1 "fo" "o"
  · exact (plus_operator_semantics { type := .PLUS, lexeme := "+", line := 1 } rfl).2.2
      (.vnum 1) (.vstr "a")
      (fun _ _ h => Value.noConfusion h.2)
      (fun _ _ h => Value.noConfusion h.1)

/-- C5: `VisitLogicalExpr` (`interpreter.go:351-371`): the left operand is
evaluated first; `or` yields the left value when it is truthy and the
right operand's evaluation otherwise; `and` yields the left value when it
is falsy and the right operand's evaluation otherwise.  In the two
short-circuit conjuncts the conclusion holds for every `rhs` and the
state is the post-left-operand state, so the right operand is never
evaluated. -/
theorem visitLogicalExpr_short_circuit (I : Interp) (fuel : Nat)
    (lhs : Expr) (op : Token) (s : LoxState) (lv : Value) (s1 : LoxState)
    (h : eval I fuel lhs s = (.ok lv, s1)) :
    (op.type = .OR → truthy lv = true →
       ∀ rhs, eval I (fuel + 1) (.logical lhs op rhs) s = (.ok lv, s1))
  ∧ (op.type = .OR → truthy lv = false →
       ∀ rhs, eval I (fuel + 1) (.logical lhs op rhs) s = eval I fuel rhs s1)
  ∧ (op.type = .AND → truthy lv = false →
       ∀ rhs, eval I (fuel + 1) (.logical lhs op rhs) s = (.ok lv, s1))
  ∧ (op.type = .AND → truthy lv = true →
       ∀ rhs, eval I (fuel + 1) (.logical lhs op rhs) s = eval I fuel rhs s1) := by
  rw [eval, asVal_ok] at h
  refine ⟨?_, ?_, ?_, ?_⟩ <;> intro hop ht rhs <;>
    rw [eval] <;> simp only [interp] <;> rw [h] <;>
    simp only [bindVal] <;> rw [hop] <;> simp [ht, asVal, eval]

/-- C5 witness: `visitLogicalExpr_short_circuit` at concrete inputs:
`true or rhs` yields `true` untouched for an arbitrary concrete `rhs`,
and `true and rhs` evaluates `rhs`. -/
theorem visitLogicalExpr_short_circuit_witness :
    eval I0 2 (.logical (.literal (.vbool true)) { type := .OR, lexeme := "or", line := 1 }
       (.literal (.vstr "r"))) s0 = (.ok (.vbool true), s0)
  ∧ eval I0 2 (.logical (.literal (.vbool true)) { type := .AND, lexeme := "and", line := 1 }
       (.literal (.vstr "r"))) s0 = eval I0 1 (.literal (.vstr "r")) s0 := by
  constructor
  · exact (visitLogicalExpr_short_circuit I0 1 (.literal (.vbool true))
      { type := .OR, lexeme := "or", line := 1 } s0 (.vbool true) s0 rfl).1 rfl rfl
      (.literal (.vstr "r"))
  · exact (visitLogicalExpr_short_circuit I0 1 (.literal (.vbool true))
      { type := .AND, lexeme := "and", line := 1 } s0 (.vbool true) s0 rfl).2.2.2 rfl rfl
      (.literal (.vstr "r"))

/-- C1: `VisitCallExpr` (`interpreter.go:289-328`): the callee is evaluated
first (its error pre-empts everything, conjunct 1); the arguments are then
evaluated strictly left-to-right (conjuncts 2 and 3); with callee and
arguments evaluated, a non-callable callee fails with
`Can only call functions and classes.` (conjunct 4) and an argument-count
/ arity mismatch fails with `Expected N arguments but got M.` (conjunct
5); in both failure conjuncts the resulting state is exactly the
post-argument state `s2`, so no part of the call body has run. -/
theorem visitCallExpr_order_and_errors (I : Interp) (fuel : Nat)
    (callee : Expr) (paren : Token) (args : List Expr) (s : LoxState) :
    (∀ e s1, eval I fuel callee s = (.err e, s1) →
       eval I (fuel + 1) (.call callee paren args) s = (.err e, s1))
  ∧ (∀ cv s1 e s2, eval I fuel callee s = (.ok cv, s1) →
       evalArgs I fuel args s1 = (.err e, s2) →
       eval I (fuel + 1) (.call callee paren args) s = (.err e, s2))
  ∧ (∀ ex exs s' v s'',
       eval I fuel ex s' = (.ok v, s'') →
       evalArgs I (fuel + 1) (ex :: exs) s' =
         (match evalArgs I fuel exs s'' with
          | (.ok vs, s3) => (.ok (v :: vs), s3)
          | (.err e, s3) => (.err e, s3)
          | (.out, s3) => (.out, s3)))
  ∧ (∀ cv s1 vs s2, eval I fuel callee s = (.ok cv, s1) →
       evalArgs I fuel args s1 = (.ok vs, s2) →
       asCallable s2 cv = none →
       eval I (fuel + 1) (.call callee paren args) s =
         (.err (.runtime paren "Can only call functions and classes."), s2))
  ∧ (∀ cv s1 vs s2 ca, eval I fuel callee s = (.ok cv, s1) →
       evalArgs I fuel args s1 = (.ok vs, s2) →
       asCallable s2 cv = some ca →
       vs.length ≠ arityOf s2 ca →
       eval I (fuel + 1) (.call callee paren args) s =
         (.err (.runtime paren ("Expected " ++ toString (arityOf s2 ca) ++
            " arguments but got " ++ toString vs.length ++ ".")), s2)) := by
  refine ⟨?_, ?_, ?_, ?_, ?_⟩
  · intro e s1 h
    rw [eval, asVal_err] at h
    rw [eval]; simp only [interp]; rw [h]; simp [bindVal, asVal]
  · intro cv s1 e s2 hc ha
    rw [eval, asVal_ok] at hc
    rw [evalArgs, asVals_err] at ha
    rw [eval]; simp only [interp]; rw [hc]; simp only [bindVal]; rw [ha]
    simp [bindVals, asVal]
  · intro ex exs s' v s'' h
    rw [eval, asVal_ok] at h
    rw [evalArgs, evalArgs]
    simp only [interp]
    rw [h]; simp only [bindVal]
    rcases hq : interp I fuel (.argsT exs) s'' with ⟨r, st⟩
    cases r with
    | ok rr => cases rr <;> simp [bindVals, asVals]
    | err e0 => simp [bindVals, asVals]
    | out => simp [bindVals, asVals]
  · intro cv s1 vs s2 hc ha hnc
    rw [eval, asVal_ok] at hc
    rw [evalArgs, asVals_ok] at ha
    rw [eval]; simp only [interp]; rw [hc]; simp only [bindVal]; rw [ha]
    simp only [bindVals]; rw [hnc]; simp [asVal]
  · intro cv s1 vs s2 ca hc ha hca hne
    rw [eval, asVal_ok] at hc
    rw [evalArgs, asVals_ok] at ha
    rw [eval]; simp only [interp]; rw [hc]; simp only [bindVal]; rw [ha]
    simp only [bindVals]; rw [hca]; simp [hne, asVal]

/-- C1 witness: `visitCallExpr_order_and_errors` at concrete inputs:
calling the number `1` with one argument fails with the non-callable
error in the post-argument state, and calling the 0-ary native clock
with one argument fails with the arity error, in both cases without any
body effect on the state. -/
theorem visitCallExpr_order_and_errors_witness :
    eval I0 3 (.call (.literal (.vnum 1)) { type := .PLUS, lexeme := "(", line := 2 }
        [.literal (.vstr "a")]) s0
      = (.err (.runtime { type := .PLUS, lexeme := "(", line := 2 }
            "Can only call functions and classes."), s0)
  ∧ eval I0 3 (.call (.literal (.vref 0)) { type := .PLUS, lexeme := "(", line := 2 }
        [.literal .vnil]) sClock
      = (.err (.runtime { type := .PLUS, lexeme := "(", line := 2 }
            "Expected 0 arguments but got 1."), sClock) := by
  constructor
  · exact (visitCallExpr_order_and_errors I0 2 (.literal (.vnum 1))
      { type := .PLUS, lexeme := "(", line := 2 } [.literal (.vstr "a")] s0).2.2.2.1
      (.vnum 1) s0 [.vstr "a"] s0 rfl rfl rfl
  · exact (visitCallExpr_order_and_errors I0 2 (.literal (.vref 0))
      { type := .PLUS, lexeme := "(", line := 2 } [.literal .vnil] sClock).2.2.2.2
      (.vref 0) sClock [.vnil] sClock 0 rfl rfl rfl (by decide)

/-- C8: `VisitExprStmt` (`interpreter.go:52-66`): when the expression
evaluates successfully, REPL mode appends `stringify(value)` as one
output line unless the expression is an assignment or a call (then the
state is exactly the post-evaluation state), and non-REPL mode never
writes anything beyond the expression's own effects. -/
theorem visitExprStmt_repl_printing (I : Interp) (fuel : Nat) (e : Expr)
    (s : LoxState) (v : Value) (s1 : LoxState)
    (h : eval I fuel e s = (.ok v, s1)) :
    (I.isREPL = true → isAssignOrCall e = false →
       exec I (fuel + 1) (.exprS e) s
         = (.ok .vnil, { s1 with output := s1.output ++ [stringify s1 v] }))
  ∧ (I.isREPL = true → isAssignOrCall e = true →
       exec I (fuel + 1) (.exprS e) s = (.ok .vnil, s1))
  ∧ (I.isREPL = false →
       exec I (fuel + 1) (.exprS e) s = (.ok .vnil, s1)) := by
  rw [eval, asVal_ok] at h
  refine ⟨?_, ?_, ?_⟩
  · intro hR hAC
    rw [exec]; simp only [interp]; rw [h]; simp only [bindVal, hR, if_true]
    cases e <;> first | rfl | (simp [isAssignOrCall] at hAC)
  · intro hR hAC
    rw [exec]; simp only [interp]; rw [h]; simp only [bindVal, hR, if_true]
    cases e <;> first | rfl | (simp [isAssignOrCall] at hAC)
  · intro hR
    rw [exec]; simp only [interp]; rw [h]; simp [bindVal, hR, asVal]

/-- C8 witness: `visitExprStmt_repl_printing` at concrete inputs: in REPL
mode the literal expression statement `"hi";` appends one stringified
line, an assignment expression statement appends nothing, and in
non-REPL mode the same literal statement appends nothing. -/
theorem visitExprStmt_repl_printing_witness :
    exec IR 2 (.exprS (.literal (.vstr "hi"))) s0
      = (.ok .vnil, { s0 with output := s0.output ++ [stringify s0 (.vstr "hi")] })
  ∧ exec IR 3 (.exprS (.assign 0 { type := .PLUS, lexeme := "x", line := 1 }
       (.literal (.vnum 5)))) sx = (.ok .vnil, sx5)
  ∧ exec I0 2 (.exprS (.literal (.vstr "hi"))) s0 = (.ok .vnil, s0) := by
  refine ⟨?_, ?_, ?_⟩
  · exact (visitExprStmt_repl_printing IR 1 (.literal (.vstr "hi")) s0 (.vstr "hi") s0
      rfl).1 rfl rfl
  · exact (visitExprStmt_repl_printing IR 2
      (.assign 0 { type := .PLUS, lexeme := "x", line := 1 } (.literal (.vnum 5)))
      sx (.vnum 5) sx5 rfl).2.1 rfl rfl
  · exact (visitExprStmt_repl_printing I0 1 (.literal (.vstr "hi")) s0 (.vstr "hi") s0
      rfl).2.2 rfl

/-- `l[i]?` succeeding bounds the index. -/
theorem getElemQ_lt {α : Type} : ∀ (l : List α) (i : Nat) (x : α), l[i]? = some x → i < l.length := by
  intro l
  induction l with
  | nil => intro i x h; simp at h
  | cons y ys ih =>
      intro i x h
      cases i with
      | zero => simp
      | succ n =>
          have := ih n x (by simpa using h)
          simpa using Nat.succ_lt_succ this

/-- Reading back an in-bounds `List.set`. -/
theorem getElemQ_set_self {α : Type} : ∀ (l : List α) (i : Nat) (a : α), i < l.length →
    (l.set i a)[i]? = some a := by
  intro l
  induction l with
  | nil => intro i a h; simp at h
  | cons y ys ih =>
      intro i a h
      cases i with
      | zero => simp
      | succ n => simpa using ih n a (by simpa using h)

/-- C9: `VisitSetExpr` (`interpreter.go:373-389`): the object subexpression
is evaluated first (its error pre-empts everything, conjunct 1); when its
value is not an instance the statement fails with
`Only instances have fields.` in the post-object state, for every value
subexpression — so the value subexpression is never evaluated (conjunct
2); when it is an instance, the value subexpression is evaluated and the
field is written unconditionally into the instance's field table
(`instance.set` is an insert-or-replace), the whole expression yielding
the assigned value (conjunct 3). -/
theorem visitSetExpr_requires_instance (I : Interp) (fuel : Nat) (obj : Expr) (name : Token)
    (s : LoxState) :
    (∀ e s1, eval I fuel obj s = (.err e, s1) → ∀ valE,
        eval I (fuel + 1) (.setE obj name valE) s = (.err e, s1))
  ∧ (∀ ov s1, eval I fuel obj s = (.ok ov, s1) → asInstance s1 ov = none → ∀ valE,
        eval I (fuel + 1) (.setE obj name valE) s =
          (.err (.runtime name "Only instances have fields."), s1))
  ∧ (∀ ov s1 ia valE v s2, eval I fuel obj s = (.ok ov, s1) → asInstance s1 ov = some ia →
        eval I fuel valE s1 = (.ok v, s2) →
        eval I (fuel + 1) (.setE obj name valE) s = (.ok v, instSet s2 ia name.lexeme v)
        ∧ ∀ ca fields, s2.heap[ia]? = some (.instObj ca fields) →
            (instSet s2 ia name.lexeme v).heap[ia]? =
              some (.instObj ca (assocSet fields name.lexeme v))) := by
  refine ⟨?_, ?_, ?_⟩
  · intro e s1 h valE
    rw [eval, asVal_err] at h
    rw [eval]; simp only [interp]; rw [h]; simp [bindVal, asVal]
  · intro ov s1 h hni valE
    rw [eval, asVal_ok] at h
    rw [eval]; simp only [interp]; rw [h]; simp only [bindVal]; rw [hni]
    simp [asVal]
  · intro ov s1 ia valE v s2 h hins hv
    rw [eval, asVal_ok] at h hv
    constructor
    · rw [eval]; simp only [interp]; rw [h]; simp only [bindVal]; rw [hins]
      simp only [bindVal]; rw [hv]; simp [bindVal, asVal]
    · intro ca fields hf
      rw [instSet, hf]
      simpa using getElemQ_set_self s2.heap ia (.instObj ca (assocSet fields name.lexeme v))
        (getElemQ_lt s2.heap ia (.instObj ca fields) hf)

/-- C9 witness: `visitSetExpr_requires_instance` at concrete inputs:
setting a field on the number `1` fails with
`Only instances have fields.` without touching the value subexpression,
and setting field `y` to `7` on a concrete instance succeeds, writing
the field and yielding `7`. -/
theorem visitSetExpr_requires_instance_witness :
    eval I0 2 (.setE (.literal (.vnum 1)) { type := .PLUS, lexeme := "y", line := 3 }
        (.literal (.vnum 7))) s0
      = (.err (.runtime { type := .PLUS, lexeme := "y", line := 3 }
          "Only instances have fields."), s0)
  ∧ eval I0 2 (.setE (.literal (.vref 1)) { type := .PLUS, lexeme := "y", line := 3 }
        (.literal (.vnum 7))) sInst
      = (.ok (.vnum 7), instSet sInst 1 "y" (.vnum 7))
  ∧ (instSet sInst 1 "y" (.vnum 7)).heap[1]? = some (.instObj 0 (assocSet [] "y" (.vnum 7))) := by
  refine ⟨?_, ?_, ?_⟩
  · exact (visitSetExpr_requires_instance I0 1 (.literal (.vnum 1))
      { type := .PLUS, lexeme := "y", line := 3 } s0).2.1 (.vnum 1) s0 rfl rfl
      (.literal (.vnum 7))
  · exact ((visitSetExpr_requires_instance I0 1 (.literal (.vref 1))
      { type := .PLUS, lexeme := "y", line := 3 } sInst).2.2 (.vref 1) sInst 1
      (.literal (.vnum 7)) (.vnum 7) sInst rfl rfl rfl).1
  · exact ((visitSetExpr_requires_instance I0 1 (.literal (.vref 1))
      { type := .PLUS, lexeme := "y", line := 3 } sInst).2.2 (.vref 1) sInst 1
      (.literal (.vnum 7)) (.vnum 7) sInst rfl rfl rfl).2 0 [] rfl

/-- C10: when an `Assign` or a `Set` expression evaluates without error,
the value of the whole expression is exactly the value the evaluated
right-hand side produced (`VisitAssignExpr` returns `val`,
`VisitSetExpr` returns `val`). -/
theorem assign_and_set_yield_assigned_value (I : Interp) (fuel : Nat) :
    (∀ id name rhs s w s', eval I (fuel + 1) (.assign id name rhs) s = (.ok w, s') →
        ∃ s1, eval I fuel rhs s = (.ok w, s1))
  ∧ (∀ obj name valE s w s', eval I (fuel + 1) (.setE obj name valE) s = (.ok w, s') →
        ∃ ov s1 s2, eval I fuel obj s = (.ok ov, s1) ∧ eval I fuel valE s1 = (.ok w, s2)) := by
  constructor
  · intro id name rhs s w s' h
    rw [eval, asVal_ok] at h
    simp only [interp] at h
    rcases hq : interp I fuel (.exprT rhs) s with ⟨r, st⟩
    rw [hq] at h
    cases r with
    | ok rr =>
        cases rr with
        | val v =>
            simp only [bindVal] at h
            split at h
            · simp only [Prod.mk.injEq, Outcome.ok.injEq, Res.val.injEq] at h
              obtain ⟨hvw, _⟩ := h
              subst hvw
              exact ⟨st, by rw [eval, asVal_ok]; exact hq⟩
            · split at h
              · simp only [Prod.mk.injEq, Outcome.ok.injEq, Res.val.injEq] at h
                obtain ⟨hvw, _⟩ := h
                subst hvw
                exact ⟨st, by rw [eval, asVal_ok]; exact hq⟩
              · simp at h
              · simp at h
        | vals vs => simp [bindVal] at h
    | err e => simp [bindVal] at h
    | out => simp [bindVal] at h
  · intro obj name valE s w s' h
    rw [eval, asVal_ok] at h
    simp only [interp] at h
    rcases hq : interp I fuel (.exprT obj) s with ⟨r, st⟩
    rw [hq] at h
    cases r with
    | ok rr =>
        cases rr with
        | val ov =>
            simp only [bindVal] at h
            split at h
            · simp at h
            · rcases hq2 : interp I fuel (.exprT valE) st with ⟨r2, st2⟩
              rw [hq2] at h
              cases r2 with
              | ok rr2 =>
                  cases rr2 with
                  | val v =>
                      simp only [bindVal, Prod.mk.injEq, Outcome.ok.injEq, Res.val.injEq] at h
                      obtain ⟨hvw, _⟩ := h
                      subst hvw
                      exact ⟨ov, st, st2, by rw [eval, asVal_ok]; exact hq,
                        by rw [eval, asVal_ok]; exact hq2⟩
                  | vals vs2 => simp [bindVal] at h
              | err e2 => simp [bindVal] at h
              | out => simp [bindVal] at h
        | vals vs => simp [bindVal] at h
    | err e => simp [bindVal] at h
    | out => simp [bindVal] at h

/-- C10 witness: `assign_and_set_yield_assigned_value` at concrete inputs:
the successful global assignment `x = 5` yields `5`, the value its
right-hand side evaluated to, and the successful field write `o.y = 7`
yields `7`. -/
theorem assign_and_set_yield_assigned_value_witness :
    (∃ s1, eval I0 1 (.literal (.vnum 5)) sx = (.ok (.vnum 5), s1))
  ∧ (∃ ov s1 s2, eval I0 1 (.literal (.vref 1)) sInst = (.ok ov, s1)
       ∧ eval I0 1 (.literal (.vnum 7)) s1 = (.ok (.vnum 7), s2)) := by
  constructor
  · exact (assign_and_set_yield_assigned_value I0 1).1 0
      { type := .PLUS, lexeme := "x", line := 1 } (.literal (.vnum 5)) sx (.vnum 5) sx5 rfl
  · exact (assign_and_set_yield_assigned_value I0 1).2 (.literal (.vref 1))
      { type := .PLUS, lexeme := "y", line := 3 } (.literal (.vnum 7)) sInst (.vnum 7)
      (instSet sInst 1 "y" (.vnum 7)) rfl

/-- C6: evaluating the code at the failing input.  The `Reset` written in
`glox/internal/lox/reporter.go` (lines 39-41) clears only `hadErr`: after
a runtime error has been reported and `Reset()` has been called,
`HadError()` is false but `HadRuntimeError()` is still true — the claim
(and the newer copy of the same file, `src/unnamed/part_001`, whose
`Reset` clears both flags) says both must be false. -/
theorem resetLox_keeps_runtime_flag :
    ((SimpleReporter.report { output := [], hadErr := false, hadRuntimeErr := false }
        (.runtimeE { type := .MINUS, lexeme := "-", line := 1 }
          "Operands must be numbers.")).resetLox).hadError = false
  ∧ ((SimpleReporter.report { output := [], hadErr := false, hadRuntimeErr := false }
        (.runtimeE { type := .MINUS, lexeme := "-", line := 1 }
          "Operands must be numbers.")).resetLox).hadRuntimeError = true
  ∧ ((SimpleReporter.report { output := [], hadErr := false, hadRuntimeErr := false }
        (.runtimeE { type := .MINUS, lexeme := "-", line := 1 }
          "Operands must be numbers.")).resetCurrent).hadRuntimeError = false := by
  exact ⟨rfl, rfl, rfl⟩

/-- C7 counterexample: the claim says a run that reported a runtime error
and no static error exits with code 70; in `main`
(`src/unnamed/part_000`) such a run exits with code 0 — `main` never
consults `HadRuntimeError()` and has no 70 exit path. -/
theorem main_ignores_runtime_error_flag :
    (SimpleReporter.report { output := [], hadErr := false, hadRuntimeErr := false }
        (.runtimeE { type := .MINUS, lexeme := "-", line := 1 }
          "Operands must be numbers.")).hadError = false
  ∧ (SimpleReporter.report { output := [], hadErr := false, hadRuntimeErr := false }
        (.runtimeE { type := .MINUS, lexeme := "-", line := 1 }
          "Operands must be numbers.")).hadRuntimeError = true
  ∧ (mainRun ["script.lox"]
       (SimpleReporter.report { output := [], hadErr := false, hadRuntimeErr := false }
          (.runtimeE { type := .MINUS, lexeme := "-", line := 1 }
            "Operands must be numbers."))).2 = 0
  ∧ (0 : Nat) ≠ 70 := by
  exact ⟨rfl, rfl, rfl, by decide⟩

/-- C7 (amended): the exit codes `main` actually produces: 64 after
printing the usage line when invoked with two or more arguments, 65 when
the finished run left `HadError()` true, and 0 in every other case — in
particular a run that reported only a runtime error exits 0, since
`HadRuntimeError()` is never consulted. -/
theorem mainRun_exit_codes (args : List String) (after : SimpleReporter) :
    (args.length > 1 → mainRun args after = (["Usage: glox [script]"], 64))
  ∧ (args.length ≤ 1 → after.hadError = true → (mainRun args after).2 = 65)
  ∧ (args.length ≤ 1 → after.hadError = false → (mainRun args after).2 = 0) := by
  refine ⟨?_, ?_, ?_⟩
  · intro h; rw [mainRun, if_pos h]
  · intro h he
    rw [mainRun, if_neg (by omega), he]
    rfl
  · intro h he
    rw [mainRun, if_neg (by omega), he]
    rfl

/-- C7 witness: `mainRun_exit_codes` at concrete inputs: two arguments
print the usage line and exit 64; one argument with a reported static
error exits 65; one argument with no static error exits 0. -/
theorem mainRun_exit_codes_witness :
    mainRun ["a.lox", "b.lox"] { output := [], hadErr := false, hadRuntimeErr := false }
      = (["Usage: glox [script]"], 64)
  ∧ (mainRun ["a.lox"] { output := ["oops"], hadErr := true, hadRuntimeErr := false }).2 = 65
  ∧ (mainRun ["a.lox"] { output := [], hadErr := false, hadRuntimeErr := true }).2 = 0 := by
  refine ⟨?_, ?_, ?_⟩
  · exact (mainRun_exit_codes ["a.lox", "b.lox"]
      { output := [], hadErr := false, hadRuntimeErr := false }).1 (by decide)
  · exact (mainRun_exit_codes ["a.lox"]
      { output := ["oops"], hadErr := true, hadRuntimeErr := false }).2.1 (by decide) rfl
  · exact (mainRun_exit_codes ["a.lox"]
      { output := [], hadErr := false, hadRuntimeErr := true }).2.2 (by decide) rfl

end Glox
